import Mathlib

/-!
Verification of the credential-management core of `ai-sdk-provider-github`:
a shallow embedding of `src/cli-token-store.ts` and `src/auth-manager.ts`.

JavaScript conventions carried into the model:
* A string is truthy iff it is nonempty (`strTruthy`); `if (x)` on an
  optional string field is truthy iff the field is present and nonempty
  (`optTruthy`).
* Parsed JSON documents are modelled by `Json`; an object's fields are a
  list of key/value pairs in insertion order (JSON.parse yields objects
  with distinct keys, so first-occurrence lookup agrees with JS access).
  `Json.other` stands for any value that is neither a string nor an object
  (numbers, booleans, arrays, null); the extraction functions below never
  produce a token from such a value, matching the runtime behaviour of the
  source on non-object documents.
* Network effects are made explicit: functions that perform an HTTP call
  take the call's result as a parameter; functions that throw return an
  explicit `error` outcome.
-/

namespace GithubProvider

/-- Character-list prefix test (used to model `String.prototype.startsWith`). -/
def charsPrefix : List Char → List Char → Bool
  | [], _ => true
  | _ :: _, [] => false
  | c :: cs, d :: ds => c == d && charsPrefix cs ds

/-- JS `s.startsWith(p)`. -/
def jsStartsWith (s p : String) : Bool := charsPrefix p.data s.data

/-- JS `s.endsWith(p)`. -/
def jsEndsWith (s p : String) : Bool :=
  charsPrefix p.data.reverse s.data.reverse

/-- JS string truthiness: a string is truthy iff nonempty. -/
def strTruthy (s : String) : Bool := !(s == "")

/-- Truthiness of an optional string field (`undefined` is falsy). -/
def optTruthy : Option String → Bool
  | none => false
  | some s => strTruthy s

/-- Parsed JSON values, restricted to the shapes the token store inspects. -/
inductive Json where
  | str (s : String)
  | obj (fields : List (String × Json))
  | other

/-- State of one on-disk credential document, as seen by `tryReadJson`:
the file may be missing, unreadable (read throws), syntactically invalid
JSON (parse throws), or valid with a parsed value. -/
inductive FileState where
  | missing
  | unreadable
  | invalidJson (raw : String)
  | valid (j : Json)

/-- The three credential documents `readCliToken` consults, in source
order: `apps.json`, `hosts.json`, and the local device-flow persistence
file `~/.ai-sdk-github-auth.json`. -/
structure FsState where
  apps : FileState
  hosts : FileState
  localAuth : FileState

/-- `tryReadJson` (cli-token-store.ts:25-35): a missing file returns null
before reading; a read or parse exception is caught and becomes null;
otherwise the parsed value is returned.  All failure modes are absorbed
here, so the function is total with no error outcome. -/
def tryReadJson : FileState → Option Json
  | FileState.missing => none
  | FileState.unreadable => none
  | FileState.invalidJson _ => none
  | FileState.valid j => some j

/-- The token-collection loop of `extractTokenFromApps`
(cli-token-store.ts:55-68): for each entry whose key is the host or starts
with `host ++ ":"`, if the value is an object whose `oauth_token` field is
a string, record the token together with whether it has the `gho_`
OAuth-class prefix. -/
def appsTokens (entries : List (String × Json)) (host : String) :
    List (String × Bool) :=
  entries.filterMap fun kv =>
    if kv.1 == host || jsStartsWith kv.1 (host ++ ":") then
      match kv.2 with
      | Json.obj fields =>
        match fields.lookup "oauth_token" with
        | some (Json.str s) => some (s, jsStartsWith s "gho_")
        | _ => none
      | _ => none
    else none

/-- `extractTokenFromApps` (cli-token-store.ts:51-82): collect all tokens
for the host, prefer the first `gho_`-prefixed one, else fall back to the
first collected token, else null.  A non-object document yields no
entries with object values, hence null. -/
def extractTokenFromApps (j : Json) (host : String) : Option String :=
  match j with
  | Json.obj entries =>
    let tokens := appsTokens entries host
    match tokens.find? (fun t => t.2) with
    | some t => some t.1
    | none => tokens.head?.map (·.1)
  | _ => none

/-- The direct-host-key branch of `extractTokenFromHosts`
(cli-token-store.ts:101-107): `data[host]` must be an object whose
`oauth_token` field is a string. -/
def hostsDirect (entries : List (String × Json)) (host : String) :
    Option String :=
  match entries.lookup host with
  | some (Json.obj fields) =>
    match fields.lookup "oauth_token" with
    | some (Json.str s) => some s
    | _ => none
  | _ => none

/-- The key-scanning loop of `extractTokenFromHosts`
(cli-token-store.ts:110-117): the first key starting with `host ++ ":"`
whose value is a string with a `gho_` or `ghu_` prefix yields that
string. -/
def hostsFlattened (entries : List (String × Json)) (host : String) :
    Option String :=
  match entries with
  | [] => none
  | kv :: rest =>
    if jsStartsWith kv.1 (host ++ ":") then
      match kv.2 with
      | Json.str v =>
        if jsStartsWith v "gho_" || jsStartsWith v "ghu_" then some v
        else hostsFlattened rest host
      | _ => hostsFlattened rest host
    else hostsFlattened rest host

/-- `extractTokenFromHosts` (cli-token-store.ts:99-120): try the direct
host key first, then the flattened `"host:user"` format; a non-object
document yields null. -/
def extractTokenFromHosts (j : Json) (host : String) : Option String :=
  match j with
  | Json.obj entries =>
    match hostsDirect entries host with
    | some s => some s
    | none => hostsFlattened entries host
  | _ => none

/-- The local-auth-file branch of `readCliToken` (cli-token-store.ts:172-175):
`localData?.oauth_token` must be present and truthy.  (The declared schema
makes the field a string; a nonempty string is the only truthy value of
that type.) -/
def localToken (f : FileState) : Option String :=
  match tryReadJson f with
  | some (Json.obj fields) =>
    match fields.lookup "oauth_token" with
    | some (Json.str s) => if strTruthy s then some s else none
    | _ => none
  | _ => none

/-- `readCliToken` (cli-token-store.ts:148-178): try `apps.json`, then
`hosts.json`, then the local auth file, in that order, returning the first
truthy token found (`if (token) return token`). -/
def readCliToken (fs : FsState) (host : String) : Option String :=
  let fromHostsOrLocal : Option String :=
    match (tryReadJson fs.hosts).bind (fun j => extractTokenFromHosts j host) with
    | some t => if strTruthy t then some t else localToken fs.localAuth
    | none => localToken fs.localAuth
  match (tryReadJson fs.apps).bind (fun j => extractTokenFromApps j host) with
  | some t => if strTruthy t then some t else fromHostsOrLocal
  | none => fromHostsOrLocal

/-! ## AuthManager (auth-manager.ts) -/

/-- `EXPIRY_BUFFER_MS` (auth-manager.ts:22): refresh 5 minutes before
actual expiry. -/
def EXPIRY_BUFFER_MS : Int := 5 * 60 * 1000

/-- `COPILOT_HEADERS` (auth-manager.ts:14-19), as an ordered list of
header entries. -/
def COPILOT_HEADERS : List (String × String) :=
  [("User-Agent", "GitHubCopilotChat/0.32.4"),
   ("Editor-Version", "vscode/1.105.1"),
   ("Editor-Plugin-Version", "copilot-chat/0.32.4"),
   ("Copilot-Integration-Id", "vscode-chat")]

/-- `CachedToken` (types.ts:14-19): Copilot API token with its expiry as a
Unix timestamp in milliseconds. -/
structure CachedToken where
  token : String
  expiresAt : Int

/-- The mutable fields of `AuthManager` (auth-manager.ts:51-54). -/
structure AuthState where
  oauthToken : Option String
  cachedToken : Option CachedToken
  domain : String
  debug : Bool

/-- The fields of `CopilotProviderOptions` (types.ts:24-53) that
`AuthManager` consults (`baseURL` and `headers` are consumed only by the
provider layer). -/
structure CopilotProviderOptions where
  oauthToken : Option String := none
  enterpriseUrl : Option String := none
  debug : Option Bool := none

/-- The scheme-stripping step of `normalizeDomain` (auth-manager.ts:28):
`url.replace(/^https?:\/\//, '')` removes one leading `http://` or
`https://`. -/
def stripScheme (s : String) : String :=
  if jsStartsWith s "https://" then String.mk (s.data.drop 8)
  else if jsStartsWith s "http://" then String.mk (s.data.drop 7)
  else s

/-- The trailing-slash step of `normalizeDomain` (auth-manager.ts:28):
`.replace(/\/$/, '')` removes one trailing slash. -/
def stripTrailingSlash (s : String) : String :=
  if jsEndsWith s "/" then String.mk s.data.dropLast else s

/-- `normalizeDomain` (auth-manager.ts:27-29). -/
def normalizeDomain (url : String) : String :=
  stripTrailingSlash (stripScheme url)

/-- The domain computation of the constructor (auth-manager.ts:58-60):
`options.enterpriseUrl ? normalizeDomain(...) : 'github.com'`, with JS
truthiness on the optional string. -/
def effectiveDomain (opts : CopilotProviderOptions) : String :=
  match opts.enterpriseUrl with
  | some u => if strTruthy u then normalizeDomain u else "github.com"
  | none => "github.com"

/-- The `AuthManager` constructor (auth-manager.ts:56-74): derive the
domain, then use the provided OAuth token if truthy, otherwise resolve one
from the CLI configuration documents; the token cache starts empty. -/
def mkAuthManager (opts : CopilotProviderOptions) (fs : FsState) : AuthState :=
  let domain := effectiveDomain opts
  { oauthToken :=
      if optTruthy opts.oauthToken then opts.oauthToken
      else readCliToken fs domain,
    cachedToken := none,
    domain := domain,
    debug := opts.debug.getD false }

/-- `CopilotTokenResponse` (types.ts:68-72): body of a successful token
exchange; `expires_at` is in seconds. -/
structure CopilotTokenResponse where
  token : String
  expires_at : Int
  refresh_in : Option Int := none

/-- Result of the HTTP GET against the token-exchange endpoint: either a
2xx response with a parsed body, or a non-2xx status with its raw text. -/
inductive ExchangeResult where
  | ok (body : CopilotTokenResponse)
  | err (status : Nat) (text : String)

/-- Outcome of `getValidToken`: a returned token string together with the
manager state after the call and whether the token-exchange request was
performed, or a thrown error with its message. -/
inductive TokenOutcome where
  | result (token : String) (s : AuthState) (networkUsed : Bool)
  | error (msg : String)

/-- The error message thrown when no OAuth token is available
(auth-manager.ts:103-105). -/
def noCredentialMsg : String :=
  "No OAuth token available. Run initiateDeviceFlow() first or provide an oauthToken in options."

/-- The error message thrown on a non-2xx token-exchange response
(auth-manager.ts:122). -/
def exchangeFailedMsg (status : Nat) (text : String) : String :=
  "Token exchange failed (" ++ toString status ++ "): " ++ text

/-- The exchange path of `getValidToken` (auth-manager.ts:102-135): throw
if the OAuth token is absent (falsy), throw with status and body on a
non-2xx response, else cache `{token, expiresAt: expires_at * 1000}` and
return the cached token. -/
def exchangeForToken (s : AuthState) (fr : ExchangeResult) : TokenOutcome :=
  if !optTruthy s.oauthToken then
    TokenOutcome.error noCredentialMsg
  else
    match fr with
    | ExchangeResult.err status text =>
      TokenOutcome.error (exchangeFailedMsg status text)
    | ExchangeResult.ok body =>
      let cached : CachedToken :=
        { token := body.token, expiresAt := body.expires_at * 1000 }
      TokenOutcome.result cached.token
        { s with cachedToken := some cached } true

/-- `getValidToken` (auth-manager.ts:94-135): if a cached token exists and
`expiresAt > now + EXPIRY_BUFFER_MS`, return it without touching the
network; otherwise run the exchange. -/
def getValidToken (s : AuthState) (now : Int) (fr : ExchangeResult) :
    TokenOutcome :=
  match s.cachedToken with
  | some c =>
    if c.expiresAt > now + EXPIRY_BUFFER_MS then
      TokenOutcome.result c.token s false
    else exchangeForToken s fr
  | none => exchangeForToken s fr

/-- `getCopilotHeaders` (auth-manager.ts:242-244): `{ ...COPILOT_HEADERS }`
builds a new object from the constant's entries; the manager state is not
touched.  In this value model the copy is the entry list itself, and the
returned state is the input state. -/
def getCopilotHeaders (s : AuthState) : List (String × String) × AuthState :=
  (COPILOT_HEADERS, s)

/-! ## Device-flow polling (auth-manager.ts:186-237) -/

/-- One response of the access-token endpoint as seen by the polling loop:
either a non-2xx HTTP status, or a 2xx response whose parsed body carries
optional `access_token` and `error` fields
(`DeviceAccessTokenResponse`, types.ts:88-94). -/
inductive PollResponse where
  | httpError
  | body (access_token : Option String) (error : Option String)

/-- Observable steps of one polling run: a POST to the access-token
endpoint, or a `setTimeout` sleep of the given number of milliseconds. -/
inductive PollEvent where
  | post
  | sleep (ms : Nat)
deriving DecidableEq, Repr

/-- Outcome of a terminating polling run: the boolean result of
`pollForToken`, the manager's OAuth token after the run, the tokens passed
to `saveLocalToken` (in order), and the trace of POSTs and sleeps. -/
structure PollResult where
  success : Bool
  oauthToken : Option String
  persisted : List String
  trace : List PollEvent

/-- `pollDeviceFlow` (auth-manager.ts:186-237), driven by the list of
successive access-token responses.  Each cycle POSTs, then classifies:
non-2xx → return false; truthy `access_token` → set the manager's OAuth
token, persist it, return true; `error === 'authorization_pending'` →
sleep `interval` seconds and continue; any other truthy `error` → return
false; otherwise sleep and continue.  `none` means the response list was
exhausted with the loop still running. -/
def pollDeviceFlow (oauth : Option String) (interval : Nat) :
    List PollResponse → Option PollResult
  | [] => none
  | PollResponse.httpError :: _ =>
    some { success := false, oauthToken := oauth, persisted := [],
           trace := [PollEvent.post] }
  | PollResponse.body tok err :: rest =>
    if optTruthy tok then
      let t := tok.getD ""
      some { success := true, oauthToken := some t, persisted := [t],
             trace := [PollEvent.post] }
    else if err == some "authorization_pending" then
      match pollDeviceFlow oauth interval rest with
      | some res =>
        some { res with
               trace := PollEvent.post :: PollEvent.sleep (interval * 1000)
                 :: res.trace }
      | none => none
    else if optTruthy err then
      some { success := false, oauthToken := oauth, persisted := [],
             trace := [PollEvent.post] }
    else
      match pollDeviceFlow oauth interval rest with
      | some res =>
        some { res with
               trace := PollEvent.post :: PollEvent.sleep (interval * 1000)
                 :: res.trace }
      | none => none

/-! ## Helper characterizations -/

/-- Whether a `TokenOutcome` is a thrown error. -/
def TokenOutcome.isError : TokenOutcome → Bool
  | TokenOutcome.error _ => true
  | TokenOutcome.result _ _ _ => false

/-- Whether an `ExchangeResult` is a non-2xx response. -/
def ExchangeResult.isErr : ExchangeResult → Bool
  | ExchangeResult.err _ _ => true
  | ExchangeResult.ok _ => false

/-- The cached token, if present and still outside the refresh buffer
(the guard of auth-manager.ts:96). -/
def usableCache (s : AuthState) (now : Int) : Option CachedToken :=
  match s.cachedToken with
  | some c => if c.expiresAt > now + EXPIRY_BUFFER_MS then some c else none
  | none => none

/-- Keep an optional string only when truthy (the `if (token)` guards of
readCliToken). -/
def truthyOpt : Option String → Option String
  | some t => if strTruthy t then some t else none
  | none => none

/-- `needle` occurs contiguously inside `hay`. -/
def strContains (hay needle : String) : Prop :=
  ∃ pre post, hay.data = pre ++ needle.data ++ post

/-- A document state on which `tryReadJson` cannot produce a value:
missing, unreadable, or syntactically invalid JSON. -/
def badDoc (f : FileState) : Prop :=
  f = FileState.missing ∨ f = FileState.unreadable
    ∨ ∃ raw, f = FileState.invalidJson raw

/-- A polling trace of shape `post (sleep post)*`: every cycle POSTs
first, and a sleep occurs only between a continuing cycle and the next
POST. -/
def postFirstTrace : List PollEvent → Bool
  | [PollEvent.post] => true
  | PollEvent.post :: PollEvent.sleep _ :: rest => postFirstTrace rest
  | _ => false

/-- The original C8 reading of the trace: every POST is immediately
preceded by a sleep, so in particular the first event of the run is a
sleep, never a POST. -/
def sleepBeforeEveryPost : List PollEvent → Bool
  | [] => true
  | PollEvent.sleep _ :: PollEvent.post :: rest => sleepBeforeEveryPost rest
  | PollEvent.sleep _ :: rest => sleepBeforeEveryPost rest
  | PollEvent.post :: _ => false

lemma strContains_append (a b c : String) : strContains (a ++ b ++ c) b :=
  ⟨a.data, c.data, by simp [String.data_append]⟩

lemma getValidToken_usable (s : AuthState) (now : Int) (fr : ExchangeResult)
    (c : CachedToken) (h : usableCache s now = some c) :
    getValidToken s now fr = TokenOutcome.result c.token s false := by
  unfold usableCache at h
  unfold getValidToken
  cases hc : s.cachedToken with
  | none => simp [hc] at h
  | some c0 =>
    simp only [hc] at h ⊢
    by_cases hlt : c0.expiresAt > now + EXPIRY_BUFFER_MS
    · rw [if_pos hlt] at h
      simp only [Option.some.injEq] at h
      subst h
      rw [if_pos hlt]
    · rw [if_neg hlt] at h
      exact absurd h (by simp)

lemma getValidToken_stale (s : AuthState) (now : Int) (fr : ExchangeResult)
    (h : usableCache s now = none) :
    getValidToken s now fr = exchangeForToken s fr := by
  unfold usableCache at h
  unfold getValidToken
  cases hc : s.cachedToken with
  | none => rfl
  | some c0 =>
    simp only [hc] at h ⊢
    by_cases hlt : c0.expiresAt > now + EXPIRY_BUFFER_MS
    · rw [if_pos hlt] at h
      exact absurd h (by simp)
    · rw [if_neg hlt]

lemma exchangeForToken_result (s : AuthState) (fr : ExchangeResult)
    (t : String) (s' : AuthState) (n : Bool)
    (h : exchangeForToken s fr = TokenOutcome.result t s' n) :
    n = true ∧ s'.oauthToken = s.oauthToken := by
  unfold exchangeForToken at h
  split at h
  · exact absurd h (by simp)
  · cases fr with
    | err status text => exact absurd h (by simp)
    | ok body => cases h; exact ⟨rfl, rfl⟩

lemma exchangeFailedMsg_has_status (status : Nat) (text : String) :
    strContains (exchangeFailedMsg status text) (toString status) :=
  ⟨("Token exchange failed (").data, ("): ").data ++ text.data,
   by simp [exchangeFailedMsg, String.data_append]⟩

lemma exchangeFailedMsg_has_text (status : Nat) (text : String) :
    strContains (exchangeFailedMsg status text) text :=
  ⟨("Token exchange failed (" ++ toString status ++ "): ").data, [],
   by simp [exchangeFailedMsg, String.data_append]⟩

lemma noCredentialMsg_mentions_deviceFlow :
    strContains noCredentialMsg "initiateDeviceFlow" :=
  ⟨("No OAuth token available. Run ").data,
   ("() first or provide an oauthToken in options.").data, by rfl⟩

lemma noCredentialMsg_mentions_oauthToken :
    strContains noCredentialMsg "oauthToken" :=
  ⟨("No OAuth token available. Run initiateDeviceFlow() first or provide an ").data,
   (" in options.").data, by rfl⟩

/-! ## Claims -/

/-- C1: `getValidToken()` returns the cached token with no network request
if and only if a cached token is present and `now + 5 minutes` is strictly
less than its `expiresAt`; a cache expiring in 10 minutes is returned
as-is, while one expiring in 4 minutes triggers a fresh exchange. -/
theorem getValidToken_cache_hit_iff (s : AuthState) (now : Int)
    (fr : ExchangeResult) :
    ((∃ c, s.cachedToken = some c ∧
        getValidToken s now fr = TokenOutcome.result c.token s false)
      ↔ (∃ c, s.cachedToken = some c ∧ now + EXPIRY_BUFFER_MS < c.expiresAt))
    ∧ (∀ c, s.cachedToken = some c → c.expiresAt = now + 10 * 60 * 1000 →
        getValidToken s now fr = TokenOutcome.result c.token s false)
    ∧ (∀ c, s.cachedToken = some c → c.expiresAt = now + 4 * 60 * 1000 →
        getValidToken s now fr = exchangeForToken s fr) := by
  refine ⟨⟨?_, ?_⟩, ?_, ?_⟩
  · rintro ⟨c, hc, hout⟩
    cases hu : usableCache s now with
    | none =>
      rw [getValidToken_stale s now fr hu] at hout
      obtain ⟨hn, -⟩ := exchangeForToken_result _ _ _ _ _ hout
      simp at hn
    | some c0 =>
      refine ⟨c, hc, ?_⟩
      unfold usableCache at hu
      rw [hc] at hu
      by_cases hlt : c.expiresAt > now + EXPIRY_BUFFER_MS
      · exact hlt
      · simp [hlt] at hu
  · rintro ⟨c, hc, hlt⟩
    refine ⟨c, hc, ?_⟩
    apply getValidToken_usable
    unfold usableCache
    rw [hc]
    simp [hlt]
  · intro c hc he
    apply getValidToken_usable
    have hlt : c.expiresAt > now + EXPIRY_BUFFER_MS := by
      rw [he]; unfold EXPIRY_BUFFER_MS; omega
    unfold usableCache
    rw [hc]
    simp [hlt]
  · intro c hc he
    apply getValidToken_stale
    have hlt : ¬ c.expiresAt > now + EXPIRY_BUFFER_MS := by
      rw [he]; unfold EXPIRY_BUFFER_MS; omega
    unfold usableCache
    rw [hc]
    simp [hlt]

/-- Witness for C1 at `now = 0`: a cache expiring at 600000 ms (10 min) is
served untouched; one expiring at 240000 ms (4 min) goes to the exchange
path. -/
theorem getValidToken_cache_hit_check :
    getValidToken
        { oauthToken := some "gho_t",
          cachedToken := some { token := "tid", expiresAt := 600000 },
          domain := "github.com", debug := false } 0
        (ExchangeResult.err 500 "boom")
      = TokenOutcome.result "tid"
        { oauthToken := some "gho_t",
          cachedToken := some { token := "tid", expiresAt := 600000 },
          domain := "github.com", debug := false } false
    ∧ getValidToken
        { oauthToken := some "gho_t",
          cachedToken := some { token := "tid", expiresAt := 240000 },
          domain := "github.com", debug := false } 0
        (ExchangeResult.err 500 "boom")
      = exchangeForToken
        { oauthToken := some "gho_t",
          cachedToken := some { token := "tid", expiresAt := 240000 },
          domain := "github.com", debug := false }
        (ExchangeResult.err 500 "boom") :=
  ⟨(getValidToken_cache_hit_iff _ 0 (ExchangeResult.err 500 "boom")).2.1
      { token := "tid", expiresAt := 600000 } rfl (by norm_num),
   (getValidToken_cache_hit_iff _ 0 (ExchangeResult.err 500 "boom")).2.2
      { token := "tid", expiresAt := 240000 } rfl (by norm_num)⟩

/-- C2: each polling cycle is classified as follows: a non-2xx response
terminates with `false`; a truthy access token sets the manager's OAuth
token, persists it via `saveLocalToken`, and terminates with `true`; an
`authorization_pending` error code continues the loop; any other error
code terminates with `false`, persisting nothing and leaving the
credential unchanged; a body with neither a token nor an error code
continues the loop. -/
theorem pollDeviceFlow_classification (oauth : Option String)
    (interval : Nat) (rest : List PollResponse) (tok err : Option String) :
    (pollDeviceFlow oauth interval (PollResponse.httpError :: rest)
      = some { success := false, oauthToken := oauth, persisted := [],
               trace := [PollEvent.post] })
    ∧ (∀ t, tok = some t → t ≠ "" →
        pollDeviceFlow oauth interval (PollResponse.body tok err :: rest)
          = some { success := true, oauthToken := some t, persisted := [t],
                   trace := [PollEvent.post] })
    ∧ (optTruthy tok = false → err = some "authorization_pending" →
        pollDeviceFlow oauth interval (PollResponse.body tok err :: rest)
          = (pollDeviceFlow oauth interval rest).map fun r =>
              { r with trace := PollEvent.post
                  :: PollEvent.sleep (interval * 1000) :: r.trace })
    ∧ (∀ e, optTruthy tok = false → err = some e → e ≠ "" →
        e ≠ "authorization_pending" →
        pollDeviceFlow oauth interval (PollResponse.body tok err :: rest)
          = some { success := false, oauthToken := oauth, persisted := [],
                   trace := [PollEvent.post] })
    ∧ (optTruthy tok = false → optTruthy err = false →
        pollDeviceFlow oauth interval (PollResponse.body tok err :: rest)
          = (pollDeviceFlow oauth interval rest).map fun r =>
              { r with trace := PollEvent.post
                  :: PollEvent.sleep (interval * 1000) :: r.trace }) := by
  refine ⟨rfl, ?_, ?_, ?_, ?_⟩
  · rintro t rfl ht
    have htr : optTruthy (some t) = true := by
      simp [optTruthy, strTruthy, ht]
    simp [pollDeviceFlow, htr]
  · intro hto he
    subst he
    cases hres : pollDeviceFlow oauth interval rest with
    | none => simp [pollDeviceFlow, hto, hres]
    | some r => simp [pollDeviceFlow, hto, hres]
  · intro e hto he hne hnp
    subst he
    have h1 : ((some e : Option String) == some "authorization_pending")
        = false := by simp [hnp]
    have h2 : optTruthy (some e) = true := by
      simp [optTruthy, strTruthy, hne]
    simp [pollDeviceFlow, hto, h1, h2]
  · intro hto hte
    have h1 : (err == some "authorization_pending") = false := by
      cases err with
      | none => rfl
      | some e =>
        have he : e = "" := by simpa [optTruthy, strTruthy] using hte
        subst he
        decide
    cases hres : pollDeviceFlow oauth interval rest with
    | none => simp [pollDeviceFlow, hto, h1, hte, hres]
    | some r => simp [pollDeviceFlow, hto, h1, hte, hres]

/-- Witness for C2: a token body terminates with success, credential set
and persisted; an `access_denied` body terminates with failure, nothing
persisted; the spec's `[pending, pending, token]` sequence succeeds with
`gho_x` persisted. -/
theorem pollDeviceFlow_classification_check :
    pollDeviceFlow none 5 [PollResponse.body (some "gho_x") none]
      = some { success := true, oauthToken := some "gho_x",
               persisted := ["gho_x"], trace := [PollEvent.post] }
    ∧ pollDeviceFlow none 5 [PollResponse.body none (some "access_denied")]
      = some { success := false, oauthToken := none, persisted := [],
               trace := [PollEvent.post] }
    ∧ pollDeviceFlow none 5
        [PollResponse.body none (some "authorization_pending"),
         PollResponse.body none (some "authorization_pending"),
         PollResponse.body (some "gho_x") none]
      = some { success := true, oauthToken := some "gho_x",
               persisted := ["gho_x"],
               trace := [PollEvent.post, PollEvent.sleep 5000,
                 PollEvent.post, PollEvent.sleep 5000, PollEvent.post] } :=
  ⟨(pollDeviceFlow_classification none 5 [] (some "gho_x") none).2.1
      "gho_x" rfl (by decide),
   (pollDeviceFlow_classification none 5 [] none
      (some "access_denied")).2.2.2.1 "access_denied" rfl rfl
      (by decide) (by decide),
   by rfl⟩

/-- C4: `getValidToken()` throws if and only if either (a) no usable
cached token exists and the effective credential is absent — the message
then instructs the caller to run the device flow or supply a credential —
or (b) the token-exchange request returns a non-2xx status — the message
then contains the status code and the raw body; in all other cases a
token string is returned. -/
theorem getValidToken_error_cases (s : AuthState) (now : Int)
    (fr : ExchangeResult) :
    ((getValidToken s now fr).isError = true
      ↔ (usableCache s now = none
          ∧ (optTruthy s.oauthToken = false ∨ fr.isErr = true)))
    ∧ (usableCache s now = none → optTruthy s.oauthToken = false →
        getValidToken s now fr = TokenOutcome.error noCredentialMsg
        ∧ strContains noCredentialMsg "initiateDeviceFlow"
        ∧ strContains noCredentialMsg "oauthToken")
    ∧ (∀ status text, usableCache s now = none →
        optTruthy s.oauthToken = true → fr = ExchangeResult.err status text →
        getValidToken s now fr
          = TokenOutcome.error (exchangeFailedMsg status text)
        ∧ strContains (exchangeFailedMsg status text) (toString status)
        ∧ strContains (exchangeFailedMsg status text) text)
    ∧ ((getValidToken s now fr).isError = false →
        ∃ t s' n, getValidToken s now fr = TokenOutcome.result t s' n) := by
  refine ⟨?_, ?_, ?_, ?_⟩
  · cases hu : usableCache s now with
    | some c =>
      rw [getValidToken_usable s now fr c hu]
      simp [TokenOutcome.isError]
    | none =>
      rw [getValidToken_stale s now fr hu]
      unfold exchangeForToken
      cases ho : optTruthy s.oauthToken with
      | false => simp [TokenOutcome.isError]
      | true =>
        cases fr with
        | err status text =>
          simp [TokenOutcome.isError, ExchangeResult.isErr]
        | ok body =>
          simp [TokenOutcome.isError, ExchangeResult.isErr]
  · intro hu ho
    refine ⟨?_, noCredentialMsg_mentions_deviceFlow,
      noCredentialMsg_mentions_oauthToken⟩
    rw [getValidToken_stale s now fr hu]
    unfold exchangeForToken
    rw [ho]
    rfl
  · intro status text hu ho hfr
    subst hfr
    refine ⟨?_, exchangeFailedMsg_has_status status text,
      exchangeFailedMsg_has_text status text⟩
    rw [getValidToken_stale s now _ hu]
    unfold exchangeForToken
    rw [ho]
    rfl
  · intro hne
    cases hout : getValidToken s now fr with
    | result t s' n => exact ⟨t, s', n, rfl⟩
    | error m =>
      rw [hout] at hne
      simp [TokenOutcome.isError] at hne

/-- Witness for C4: with no credential and empty cache the call fails with
the instructional message; with a credential and a 403 response it fails
with a message containing `403` and the body `denied`. -/
theorem getValidToken_error_cases_check :
    getValidToken
        { oauthToken := none, cachedToken := none,
          domain := "github.com", debug := false } 0
        (ExchangeResult.ok { token := "t", expires_at := 1 })
      = TokenOutcome.error noCredentialMsg
    ∧ strContains noCredentialMsg "initiateDeviceFlow"
    ∧ strContains noCredentialMsg "oauthToken"
    ∧ getValidToken
        { oauthToken := some "gho_t", cachedToken := none,
          domain := "github.com", debug := false } 0
        (ExchangeResult.err 403 "denied")
      = TokenOutcome.error (exchangeFailedMsg 403 "denied")
    ∧ strContains (exchangeFailedMsg 403 "denied") "403"
    ∧ strContains (exchangeFailedMsg 403 "denied") "denied" := by
  have h1 := (getValidToken_error_cases
    { oauthToken := none, cachedToken := none,
      domain := "github.com", debug := false } 0
    (ExchangeResult.ok { token := "t", expires_at := 1 })).2.1 rfl rfl
  have h2 := (getValidToken_error_cases
    { oauthToken := some "gho_t", cachedToken := none,
      domain := "github.com", debug := false } 0
    (ExchangeResult.err 403 "denied")).2.2.1 403 "denied" rfl (by decide) rfl
  exact ⟨h1.1, h1.2.1, h1.2.2, h2.1, h2.2.1, h2.2.2⟩

/-- C7: a successful exchange response `{token, expires_at (seconds),
refresh_in?}` replaces the cache wholesale with
`{token, expiresAt = expires_at * 1000}` and returns exactly that token
string. -/
theorem exchange_caches_milliseconds (s : AuthState) (now : Int)
    (fr : ExchangeResult) (t : String) (e : Int) (ri : Option Int)
    (hu : usableCache s now = none) (ho : optTruthy s.oauthToken = true)
    (hfr : fr = ExchangeResult.ok
      { token := t, expires_at := e, refresh_in := ri }) :
    getValidToken s now fr = TokenOutcome.result t
      { s with cachedToken := some { token := t, expiresAt := e * 1000 } }
      true := by
  subst hfr
  rw [getValidToken_stale s now _ hu]
  unfold exchangeForToken
  rw [ho]
  rfl

/-- Witness for C7: `expires_at = 1700000000` seconds yields a cache entry
expiring at `1700000000000` milliseconds, returned as the result. -/
theorem exchange_caches_milliseconds_check :
    getValidToken
        { oauthToken := some "gho_t", cachedToken := none,
          domain := "github.com", debug := false } 0
        (ExchangeResult.ok { token := "t1", expires_at := 1700000000 })
      = TokenOutcome.result "t1"
        { oauthToken := some "gho_t",
          cachedToken := some { token := "t1", expiresAt := 1700000000000 },
          domain := "github.com", debug := false } true :=
  exchange_caches_milliseconds _ 0 _ "t1" 1700000000 none rfl (by decide) rfl

/-- C8 (counterexample): the claim says each polling cycle first sleeps
and only then POSTs, so the first POST would come after a sleep.  The run
on a single token response has trace `[post]`: the loop POSTed
immediately, with no sleep before (or anywhere in) the run. -/
theorem poll_sleep_first_refuted :
    (pollDeviceFlow none 5 [PollResponse.body (some "gho_x") none]).map
        PollResult.trace = some [PollEvent.post]
    ∧ sleepBeforeEveryPost [PollEvent.post] = false :=
  ⟨rfl, rfl⟩

/-- C8 (amended): every polling cycle POSTs the access-token endpoint
first and sleeps for the poll interval only after a cycle classified as
"continue"; in particular the first POST happens immediately, before any
sleep.  Every terminating run's trace has shape `post (sleep post)*`. -/
theorem poll_post_then_sleep (oauth : Option String) (interval : Nat)
    (rs : List PollResponse) (res : PollResult)
    (h : pollDeviceFlow oauth interval rs = some res) :
    postFirstTrace res.trace = true
    ∧ res.trace.head? = some PollEvent.post := by
  induction rs generalizing res with
  | nil => simp [pollDeviceFlow] at h
  | cons r rest ih =>
    cases r with
    | httpError =>
      simp only [pollDeviceFlow, Option.some.injEq] at h
      subst h
      exact ⟨rfl, rfl⟩
    | body tok err =>
      simp only [pollDeviceFlow] at h
      split at h
      · simp only [Option.some.injEq] at h
        subst h
        exact ⟨rfl, rfl⟩
      · split at h
        · cases hrec : pollDeviceFlow oauth interval rest with
          | none => rw [hrec] at h; simp at h
          | some r0 =>
            rw [hrec] at h
            simp only [Option.some.injEq] at h
            subst h
            obtain ⟨ih1, ih2⟩ := ih r0 hrec
            exact ⟨by simpa [postFirstTrace] using ih1, rfl⟩
        · split at h
          · simp only [Option.some.injEq] at h
            subst h
            exact ⟨rfl, rfl⟩
          · cases hrec : pollDeviceFlow oauth interval rest with
            | none => rw [hrec] at h; simp at h
            | some r0 =>
              rw [hrec] at h
              simp only [Option.some.injEq] at h
              subst h
              obtain ⟨ih1, ih2⟩ := ih r0 hrec
              exact ⟨by simpa [postFirstTrace] using ih1, rfl⟩

/-- Witness for amended C8: the run `[pending, token]` has trace
`post, sleep 5000, post`, which is post-first. -/
theorem poll_post_then_sleep_check :
    postFirstTrace [PollEvent.post, PollEvent.sleep 5000, PollEvent.post]
      = true
    ∧ List.head? [PollEvent.post, PollEvent.sleep 5000, PollEvent.post]
      = some PollEvent.post :=
  poll_post_then_sleep none 5
    [PollResponse.body none (some "authorization_pending"),
     PollResponse.body (some "gho_x") none]
    { success := true, oauthToken := some "gho_x", persisted := ["gho_x"],
      trace := [PollEvent.post, PollEvent.sleep 5000, PollEvent.post] }
    (by rfl)

/-- Every token collected by `appsTokens` carries the flag
`jsStartsWith token "gho_"`, by construction. -/
lemma appsTokens_flag (entries : List (String × Json)) (host : String) :
    ∀ p ∈ appsTokens entries host, p.2 = jsStartsWith p.1 "gho_" := by
  intro p hp
  unfold appsTokens at hp
  rw [List.mem_filterMap] at hp
  obtain ⟨kv, -, hf⟩ := hp
  split at hf
  · split at hf
    · split at hf
      · simp only [Option.some.injEq] at hf
        subst hf
        rfl
      · simp at hf
    · simp at hf
  · simp at hf

/-- C5 (counterexample): the claim extends the `gho_` preference to the
secondary (hosts) document, but `extractTokenFromHosts` applies none: with
a direct-key `ghu_` entry and a flattened `gho_` entry for the same host,
resolution returns the user-delegated `ghu_` token. -/
theorem hosts_preference_refuted :
    extractTokenFromHosts
      (Json.obj
        [("github.com", Json.obj [("oauth_token", Json.str "ghu_a")]),
         ("github.com:alice", Json.str "gho_b")]) "github.com"
      = some "ghu_a"
    ∧ jsStartsWith "ghu_a" "ghu_" = true
    ∧ jsStartsWith "gho_b" "gho_" = true
    ∧ jsStartsWith "ghu_a" "gho_" = false :=
  ⟨rfl, rfl, rfl, rfl⟩

/-- C5 (amended): the `gho_`-over-`ghu_` preference holds in the primary
(apps) document only: there, if any collected token for the host is
OAuth-class the result is OAuth-class, with no OAuth-class match the first
collected token is returned, and with no match the result is absent.  The
secondary (hosts) document applies no prefix preference: the direct host
key is returned whatever its prefix, and otherwise the first flattened
match is returned. -/
theorem token_preference_amended (entries : List (String × Json))
    (host : String) :
    ((appsTokens entries host).any (fun p => p.2) = true →
      ∃ tk, extractTokenFromApps (Json.obj entries) host = some tk
        ∧ jsStartsWith tk "gho_" = true)
    ∧ ((appsTokens entries host).any (fun p => p.2) = false →
      extractTokenFromApps (Json.obj entries) host
        = (appsTokens entries host).head?.map (fun p => p.1))
    ∧ (appsTokens entries host = [] →
      extractTokenFromApps (Json.obj entries) host = none)
    ∧ (∀ sv, hostsDirect entries host = some sv →
      extractTokenFromHosts (Json.obj entries) host = some sv)
    ∧ (hostsDirect entries host = none →
      extractTokenFromHosts (Json.obj entries) host
        = hostsFlattened entries host) := by
  refine ⟨?_, ?_, ?_, ?_, ?_⟩
  · intro hany
    obtain ⟨p, hmem, hp⟩ := List.any_eq_true.mp hany
    have hsome : ((appsTokens entries host).find? (fun p => p.2)).isSome :=
      List.find?_isSome.mpr ⟨p, hmem, hp⟩
    obtain ⟨q, hq⟩ := Option.isSome_iff_exists.mp hsome
    refine ⟨q.1, ?_, ?_⟩
    · simp only [extractTokenFromApps, hq]
    · have h2 := List.find?_some hq
      have h3 := appsTokens_flag entries host q
        (List.mem_of_find?_eq_some hq)
      rw [h3] at h2
      exact h2
  · intro hany
    have hnone : (appsTokens entries host).find? (fun p => p.2) = none := by
      rw [List.find?_eq_none]
      intro x hx
      simp only [List.any_eq_false] at hany
      simp [hany x hx]
    simp only [extractTokenFromApps, hnone]
  · intro hnil
    simp [extractTokenFromApps, hnil]
  · intro sv hd
    simp only [extractTokenFromHosts, hd]
  · intro hd
    simp only [extractTokenFromHosts, hd]

/-- Witness for amended C5: a host with a `ghu_` and a `gho_` entry in the
apps document resolves to the `gho_` token; with only `ghu_` entries the
first is returned; the hosts document returns its direct entry. -/
theorem token_preference_amended_check :
    (∃ tk, extractTokenFromApps
        (Json.obj
          [("github.com:Iv1", Json.obj [("oauth_token", Json.str "ghu_u")]),
           ("github.com:X", Json.obj [("oauth_token", Json.str "gho_o")])])
        "github.com" = some tk
      ∧ jsStartsWith tk "gho_" = true)
    ∧ extractTokenFromApps
        (Json.obj
          [("github.com:Iv1", Json.obj [("oauth_token", Json.str "ghu_u")]),
           ("github.com:X", Json.obj [("oauth_token", Json.str "ghu_v")])])
        "github.com" = some "ghu_u"
    ∧ extractTokenFromApps (Json.obj [("example.org", Json.str "x")])
        "github.com" = none
    ∧ extractTokenFromHosts
        (Json.obj
          [("github.com", Json.obj [("oauth_token", Json.str "ghu_a")]),
           ("github.com:alice", Json.str "gho_b")]) "github.com"
        = some "ghu_a" := by
  refine ⟨?_, ?_, ?_, ?_⟩
  · exact (token_preference_amended
      [("github.com:Iv1", Json.obj [("oauth_token", Json.str "ghu_u")]),
       ("github.com:X", Json.obj [("oauth_token", Json.str "gho_o")])]
      "github.com").1 (by rfl)
  · exact (token_preference_amended
      [("github.com:Iv1", Json.obj [("oauth_token", Json.str "ghu_u")]),
       ("github.com:X", Json.obj [("oauth_token", Json.str "ghu_v")])]
      "github.com").2.1 (by rfl)
  · exact (token_preference_amended [("example.org", Json.str "x")]
      "github.com").2.2.1 (by rfl)
  · exact (token_preference_amended
      [("github.com", Json.obj [("oauth_token", Json.str "ghu_a")]),
       ("github.com:alice", Json.str "gho_b")] "github.com").2.2.2.1
      "ghu_a" (by rfl)

/-- C9: the secondary (hosts) document accepts both forms — a direct host
key nesting an `oauth_token` field, and a flattened `"host:user"` key
mapped directly to a token string; the direct nested form is checked
first, and a flattened entry whose value is a `gho_`/`ghu_` string is
recognized and returned, e.g. `{"github.com:alice": "gho_y"}` gives
`"gho_y"`. -/
theorem hosts_document_forms (entries : List (String × Json))
    (host : String) :
    (∀ fields sv, entries.lookup host = some (Json.obj fields) →
        fields.lookup "oauth_token" = some (Json.str sv) →
        extractTokenFromHosts (Json.obj entries) host = some sv)
    ∧ (hostsDirect entries host = none → ∀ v,
        hostsFlattened entries host = some v →
        extractTokenFromHosts (Json.obj entries) host = some v)
    ∧ (∀ userKey v, jsStartsWith userKey (host ++ ":") = true →
        (jsStartsWith v "gho_" || jsStartsWith v "ghu_") = true →
        hostsFlattened [(userKey, Json.str v)] host = some v)
    ∧ extractTokenFromHosts
        (Json.obj [("github.com:alice", Json.str "gho_y")]) "github.com"
      = some "gho_y" := by
  refine ⟨?_, ?_, ?_, rfl⟩
  · intro fields sv h1 h2
    have hd : hostsDirect entries host = some sv := by
      simp only [hostsDirect, h1, h2]
    simp only [extractTokenFromHosts, hd]
  · intro hd v hv
    simp only [extractTokenFromHosts, hd, hv]
  · intro userKey v hk hv
    simp [hostsFlattened, hk, hv]

/-- Witness for C9: the direct nested form wins even with a flattened
entry present; a lone flattened entry is recognized. -/
theorem hosts_document_forms_check :
    extractTokenFromHosts
        (Json.obj
          [("github.com", Json.obj [("oauth_token", Json.str "gho_d")]),
           ("github.com:alice", Json.str "gho_y")]) "github.com"
      = some "gho_d"
    ∧ extractTokenFromHosts
        (Json.obj [("github.com:alice", Json.str "gho_y")]) "github.com"
      = some "gho_y" :=
  ⟨(hosts_document_forms
      [("github.com", Json.obj [("oauth_token", Json.str "gho_d")]),
       ("github.com:alice", Json.str "gho_y")] "github.com").1
      [("oauth_token", Json.str "gho_d")] "gho_d" rfl rfl,
   (hosts_document_forms [("github.com:alice", Json.str "gho_y")]
      "github.com").2.1 rfl "gho_y" rfl⟩

/-- C6: reading a credential document is tolerant — a missing file, an
unreadable file, or malformed JSON yields absent (`tryReadJson` absorbs
every failure and is total, so no exception reaches the caller) — and
when all three documents are in such a state `readCliToken` returns
absent for any host. -/
theorem tolerant_read_absent (fs : FsState) (host : String) :
    (∀ f, badDoc f → tryReadJson f = none)
    ∧ (badDoc fs.apps → badDoc fs.hosts → badDoc fs.localAuth →
        readCliToken fs host = none) := by
  have habs : ∀ f, badDoc f → tryReadJson f = none := by
    intro f hb
    rcases hb with rfl | rfl | ⟨raw, rfl⟩ <;> rfl
  refine ⟨habs, ?_⟩
  intro ha hh hl
  have ha' := habs fs.apps ha
  have hh' := habs fs.hosts hh
  have hl' := habs fs.localAuth hl
  simp [readCliToken, localToken, ha', hh', hl']

/-- Witness for C6: a missing `apps.json`, unreadable `hosts.json` and
malformed local file resolve to absent. -/
theorem tolerant_read_absent_check :
    readCliToken
      { apps := FileState.missing, hosts := FileState.unreadable,
        localAuth := FileState.invalidJson "not json" } "github.com"
      = none :=
  (tolerant_read_absent
    { apps := FileState.missing, hosts := FileState.unreadable,
      localAuth := FileState.invalidJson "not json" } "github.com").2
    (Or.inl rfl) (Or.inr (Or.inl rfl)) (Or.inr (Or.inr ⟨"not json", rfl⟩))

/-- A terminating polling run leaves the credential and persistence
untouched on failure, and on success sets the credential to the one
token it persisted. -/
lemma pollDeviceFlow_state (oauth : Option String) (i : Nat)
    (rs : List PollResponse) (r : PollResult)
    (h : pollDeviceFlow oauth i rs = some r) :
    (r.success = false → r.oauthToken = oauth ∧ r.persisted = [])
    ∧ (r.success = true → ∃ t, r.oauthToken = some t
        ∧ r.persisted = [t]) := by
  induction rs generalizing r with
  | nil => simp [pollDeviceFlow] at h
  | cons x rest ih =>
    cases x with
    | httpError =>
      simp only [pollDeviceFlow, Option.some.injEq] at h
      subst h
      exact ⟨fun _ => ⟨rfl, rfl⟩, fun hs => by simp at hs⟩
    | body tok err =>
      simp only [pollDeviceFlow] at h
      split at h
      · simp only [Option.some.injEq] at h
        subst h
        refine ⟨fun hs => by simp at hs, fun _ => ⟨tok.getD "", rfl, rfl⟩⟩
      · split at h
        · cases hrec : pollDeviceFlow oauth i rest with
          | none => rw [hrec] at h; simp at h
          | some r0 =>
            rw [hrec] at h
            simp only [Option.some.injEq] at h
            subst h
            simpa using ih r0 hrec
        · split at h
          · simp only [Option.some.injEq] at h
            subst h
            exact ⟨fun _ => ⟨rfl, rfl⟩, fun hs => by simp at hs⟩
          · cases hrec : pollDeviceFlow oauth i rest with
            | none => rw [hrec] at h; simp at h
            | some r0 =>
              rw [hrec] at h
              simp only [Option.some.injEq] at h
              subst h
              simpa using ih r0 hrec

/-- C3: credential resolution is a fixed total precedence — an explicit
(truthy) constructor credential is used and the documents are never
consulted; otherwise the apps document, the hosts document, then the
local document are tried in that order, short-circuiting on the first
truthy token and yielding absent when none matches.  Resolution happens
at construction: `getValidToken` never changes the credential, a failed
device flow leaves it unchanged, and only a successful device flow
replaces it. -/
theorem credential_resolution_precedence (opts : CopilotProviderOptions)
    (fs : FsState) (host : String) :
    (∀ t, opts.oauthToken = some t → strTruthy t = true →
        (mkAuthManager opts fs).oauthToken = some t)
    ∧ (optTruthy opts.oauthToken = true → ∀ fs',
        mkAuthManager opts fs' = mkAuthManager opts fs)
    ∧ (optTruthy opts.oauthToken = false →
        (mkAuthManager opts fs).oauthToken
          = readCliToken fs (effectiveDomain opts))
    ∧ (∀ t, truthyOpt ((tryReadJson fs.apps).bind
          (fun j => extractTokenFromApps j host)) = some t →
        readCliToken fs host = some t)
    ∧ (truthyOpt ((tryReadJson fs.apps).bind
          (fun j => extractTokenFromApps j host)) = none →
        ∀ t, truthyOpt ((tryReadJson fs.hosts).bind
          (fun j => extractTokenFromHosts j host)) = some t →
        readCliToken fs host = some t)
    ∧ (truthyOpt ((tryReadJson fs.apps).bind
          (fun j => extractTokenFromApps j host)) = none →
        truthyOpt ((tryReadJson fs.hosts).bind
          (fun j => extractTokenFromHosts j host)) = none →
        readCliToken fs host = localToken fs.localAuth)
    ∧ (∀ s now fr t s' n,
        getValidToken s now fr = TokenOutcome.result t s' n →
        s'.oauthToken = s.oauthToken)
    ∧ (∀ oauth i rs r, pollDeviceFlow oauth i rs = some r →
        r.success = false → r.oauthToken = oauth)
    ∧ (∀ oauth i rs r, pollDeviceFlow oauth i rs = some r →
        r.success = true → ∃ t, r.oauthToken = some t
          ∧ r.persisted = [t]) := by
  refine ⟨?_, ?_, ?_, ?_, ?_, ?_, ?_, ?_, ?_⟩
  · intro t ht htr
    simp [mkAuthManager, ht, optTruthy, htr]
  · intro ho fs'
    simp [mkAuthManager, ho]
  · intro ho
    simp [mkAuthManager, ho]
  · intro t ht
    cases hx : (tryReadJson fs.apps).bind
        (fun j => extractTokenFromApps j host) with
    | none => rw [hx] at ht; simp [truthyOpt] at ht
    | some u =>
      rw [hx] at ht
      cases hu : strTruthy u with
      | false => simp [truthyOpt, hu] at ht
      | true =>
        have hut : u = t := by simpa [truthyOpt, hu] using ht
        subst hut
        simp [readCliToken, hx, hu]
  · intro ha t ht
    cases hx : (tryReadJson fs.hosts).bind
        (fun j => extractTokenFromHosts j host) with
    | none => rw [hx] at ht; simp [truthyOpt] at ht
    | some u =>
      rw [hx] at ht
      cases hu : strTruthy u with
      | false => simp [truthyOpt, hu] at ht
      | true =>
        have hut : u = t := by simpa [truthyOpt, hu] using ht
        subst hut
        cases hax : (tryReadJson fs.apps).bind
            (fun j => extractTokenFromApps j host) with
        | none => simp [readCliToken, hax, hx, hu]
        | some ua =>
          rw [hax] at ha
          cases hua : strTruthy ua with
          | true => simp [truthyOpt, hua] at ha
          | false => simp [readCliToken, hax, hua, hx, hu]
  · intro ha hh
    cases hax : (tryReadJson fs.apps).bind
        (fun j => extractTokenFromApps j host) with
    | none =>
      cases hhx : (tryReadJson fs.hosts).bind
          (fun j => extractTokenFromHosts j host) with
      | none => simp [readCliToken, hax, hhx]
      | some uh =>
        rw [hhx] at hh
        cases huh : strTruthy uh with
        | true => simp [truthyOpt, huh] at hh
        | false => simp [readCliToken, hax, hhx, huh]
    | some ua =>
      rw [hax] at ha
      cases hua : strTruthy ua with
      | true => simp [truthyOpt, hua] at ha
      | false =>
        cases hhx : (tryReadJson fs.hosts).bind
            (fun j => extractTokenFromHosts j host) with
        | none => simp [readCliToken, hax, hua, hhx]
        | some uh =>
          rw [hhx] at hh
          cases huh : strTruthy uh with
          | true => simp [truthyOpt, huh] at hh
          | false => simp [readCliToken, hax, hua, hhx, huh]
  · intro s now fr t s' n h
    cases hu : usableCache s now with
    | some c =>
      rw [getValidToken_usable s now fr c hu] at h
      simp only [TokenOutcome.result.injEq] at h
      rw [← h.2.1]
    | none =>
      rw [getValidToken_stale s now fr hu] at h
      exact (exchangeForToken_result s fr t s' n h).2
  · intro oauth i rs r h hs
    exact ((pollDeviceFlow_state oauth i rs r h).1 hs).1
  · intro oauth i rs r h hs
    exact (pollDeviceFlow_state oauth i rs r h).2 hs

/-- Witness for C3: an explicit credential wins over a populated apps
document; with no explicit credential the apps document wins over hosts
and local; with no apps document the hosts token is used. -/
theorem credential_resolution_precedence_check :
    (mkAuthManager
        { oauthToken := some "gho_explicit" }
        { apps := FileState.valid (Json.obj [("github.com",
            Json.obj [("oauth_token", Json.str "gho_app")])]),
          hosts := FileState.missing,
          localAuth := FileState.missing }).oauthToken
      = some "gho_explicit"
    ∧ readCliToken
        { apps := FileState.valid (Json.obj [("github.com",
            Json.obj [("oauth_token", Json.str "gho_app")])]),
          hosts := FileState.valid (Json.obj [("github.com",
            Json.obj [("oauth_token", Json.str "gho_host")])]),
          localAuth := FileState.valid
            (Json.obj [("oauth_token", Json.str "gho_local")]) }
        "github.com" = some "gho_app"
    ∧ readCliToken
        { apps := FileState.missing,
          hosts := FileState.valid (Json.obj [("github.com",
            Json.obj [("oauth_token", Json.str "gho_host")])]),
          localAuth := FileState.valid
            (Json.obj [("oauth_token", Json.str "gho_local")]) }
        "github.com" = some "gho_host"
    ∧ (mkAuthManager { oauthToken := none }
        { apps := FileState.missing, hosts := FileState.missing,
          localAuth := FileState.valid
            (Json.obj [("oauth_token", Json.str "gho_local")]) }).oauthToken
      = readCliToken
        { apps := FileState.missing, hosts := FileState.missing,
          localAuth := FileState.valid
            (Json.obj [("oauth_token", Json.str "gho_local")]) }
        "github.com" := by
  refine ⟨?_, ?_, ?_, ?_⟩
  · exact (credential_resolution_precedence
      { oauthToken := some "gho_explicit" }
      { apps := FileState.valid (Json.obj [("github.com",
          Json.obj [("oauth_token", Json.str "gho_app")])]),
        hosts := FileState.missing, localAuth := FileState.missing }
      "github.com").1 "gho_explicit" rfl rfl
  · exact (credential_resolution_precedence { oauthToken := none }
      { apps := FileState.valid (Json.obj [("github.com",
          Json.obj [("oauth_token", Json.str "gho_app")])]),
        hosts := FileState.valid (Json.obj [("github.com",
          Json.obj [("oauth_token", Json.str "gho_host")])]),
        localAuth := FileState.valid
          (Json.obj [("oauth_token", Json.str "gho_local")]) }
      "github.com").2.2.2.1 "gho_app" rfl
  · exact (credential_resolution_precedence { oauthToken := none }
      { apps := FileState.missing,
        hosts := FileState.valid (Json.obj [("github.com",
          Json.obj [("oauth_token", Json.str "gho_host")])]),
        localAuth := FileState.valid
          (Json.obj [("oauth_token", Json.str "gho_local")]) }
      "github.com").2.2.2.2.1 rfl "gho_host" rfl
  · exact (credential_resolution_precedence { oauthToken := none }
      { apps := FileState.missing, hosts := FileState.missing,
        localAuth := FileState.valid
          (Json.obj [("oauth_token", Json.str "gho_local")]) }
      "github.com").2.2.1 rfl

/-- C10: every `getCopilotHeaders()` call returns exactly the four fixed
client-identification headers, leaves the manager state unchanged, and —
since each call copies the constant rather than aliasing a previous
return value — every call (whatever happened to earlier returned objects)
yields the same four entries. -/
theorem copilot_headers_fixed (s : AuthState) :
    (getCopilotHeaders s).1
      = [("User-Agent", "GitHubCopilotChat/0.32.4"),
         ("Editor-Version", "vscode/1.105.1"),
         ("Editor-Plugin-Version", "copilot-chat/0.32.4"),
         ("Copilot-Integration-Id", "vscode-chat")]
    ∧ (getCopilotHeaders s).2 = s
    ∧ ∀ s' : AuthState, ∀ _mutated : List (String × String),
        (getCopilotHeaders s').1 = (getCopilotHeaders s).1 :=
  ⟨rfl, rfl, fun _ _ => rfl⟩

end GithubProvider
